import Mathlib

/-!
Verification development for the polyhedra-viewer operation engine.

Shallow embedding of the repository's core modules:

* `src/math/operations/operationPairs.ts` — the OpPair graph engine
  (`findEntry`, `getEntry`, `getOpposite`, `combineOps` dispatch);
* the prism-operation graphs (`makePrismOp`, `turnPrismatic`,
  `makeBicupolaPrismOp`, `elongate`, `shorten`, `turn`);
* `src/math/formes/CompositeForme.ts` — the Composite Forme layer
  (`create`, `canAugment`, `alignment`, `isGyrate`, `modifications`);
* the legacy `src/math/operations/augment.js` (`canAugmentWith`,
  `canAugment`, `getPossibleAugmentees`, `doAugment`'s axis/angle);
* `src/math/operations/cutPasteOps/cutPasteUtils.ts` (`inc`, `dec`).

TypeScript objects become Lean structures; thrown errors become
`Except String`; lodash `isMatch`/`pickBy` are modelled on flat
key-value lists, which is how the option objects of this code base are
shaped.  Where a module referenced by the code is not part of the
repository snapshot (the `specs` data classes, `math/geom` helpers,
`utils.getSingle`), the corresponding definition carries a doc comment
starting `Modelled from the spec:` and follows the specification's words.
-/

namespace PV

/-! ## Option objects and lodash matching (operationPairs.ts) -/

/-- A flat option object: finitely many string keys with string values,
as the per-side option objects of the operation graphs are shaped. -/
abbrev Opts := List (String × String)

/-- A flat object whose values may be `undefined` (`Option.none`), the
shape `toGraphOpts` results have before `pickBy` strips the undefined
fields. -/
abbrev GOpts := List (String × Option String)

/-- lodash `isMatch obj src`: every key-value pair of `src` occurs in
`obj`; a caller may omit fields it does not care about ([] matches
everything). -/
def isMatch (obj src : Opts) : Bool :=
  src.all fun kv => obj.lookup kv.1 == some kv.2

/-- lodash `pickBy`: keep the fields whose value is defined. -/
def pickBy (go : GOpts) : Opts :=
  go.filterMap fun kv => kv.2.map fun v => (kv.1, v)

/-! ## The OpPair graph (operationPairs.ts) -/

/-- The two directions of an operation pair. -/
inductive Side
  | left
  | right
deriving DecidableEq

/-- `oppositeSide` of operationPairs.ts. -/
def oppositeSide : Side → Side
  | .left => .right
  | .right => .left

/-- A graph entry `{left, right, options}`; absent options are the empty
object on both sides (the source reads `entry.options?.[side] ?? {}`). -/
structure GraphEntry (S : Type) where
  left : S
  right : S
  leftOpts : Opts
  rightOpts : Opts
deriving DecidableEq

/-- `entry[side]`. -/
def GraphEntry.sideSpecs : Side → GraphEntry S → S
  | .left, e => e.left
  | .right, e => e.right

/-- `entry.options?.[side] ?? {}`. -/
def GraphEntry.sideOpts : Side → GraphEntry S → Opts
  | .left, e => e.leftOpts
  | .right, e => e.rightOpts

/-- `OpPair.findEntry`: the first entry whose specs on `side` equal the
given specs and whose options on that side contain the caller's options
(`isMatch`). -/
def findEntry [DecidableEq S] (graph : List (GraphEntry S)) (side : Side)
    (specs : S) (opts : Opts) : Option (GraphEntry S) :=
  graph.find? fun e =>
    (e.sideSpecs side == specs) && isMatch (e.sideOpts side) opts

/-- `OpPair.getEntry`: `findEntry`, raising when there is no match. -/
def getEntry [DecidableEq S] (graph : List (GraphEntry S)) (side : Side)
    (specs : S) (opts : Opts) : Except String (GraphEntry S) :=
  match findEntry graph side specs opts with
  | some e => .ok e
  | none => .error "Could not find entry with the given specs and opts"

/-- `OpPair.getOpposite`: the specs on the other side of the matched
entry; this is also the `result` specs of `OpPair.apply`, whose only
failure point at the specs level is `getEntry`. -/
def getOpposite [DecidableEq S] (graph : List (GraphEntry S)) (side : Side)
    (specs : S) (opts : Opts) : Except String S :=
  (getEntry graph side specs opts).map (GraphEntry.sideSpecs (oppositeSide side))

/-! ## combineOps (operationPairs.ts) -/

/-- A directed graph entry as `toDirected` yields it:
`{start: entry[side], end: entry[oppositeSide side], options:
entry.options?.[side]}`. -/
structure DirectedEntry (S : Type) where
  start : S
  stop : S
  options : Opts
deriving DecidableEq

/-- `toDirected side graph` of operationPairs.ts. -/
def toDirected (side : Side) (graph : List (GraphEntry S)) :
    List (DirectedEntry S) :=
  graph.map fun e =>
    { start := e.sideSpecs side
      stop := e.sideSpecs (oppositeSide side)
      options := e.sideOpts side }

/-- One sub-operation as `combineOps` consumes it: its directed graph,
its `toGraphOpts`, and its `apply` reduced to the specs it produces.
The forme argument of the source's callbacks is represented by its
specs. -/
structure SubOp (S : Type) where
  graph : List (DirectedEntry S)
  toGraphOpts : S → Opts → GOpts
  applyOp : S → Opts → Except String S

/-- One step of `doWithRightForme`'s outer loop: the first entry of this
sub-operation's graph whose start is equivalent to the solid's specs and
whose options contain `pickBy (toGraphOpts ...)`. -/
def matchStep (equivb : S → S → Bool) (specs : S) (opts : Opts)
    (op : SubOp S) : Option (SubOp S × DirectedEntry S) :=
  (op.graph.find? fun e =>
      equivb e.start specs &&
      isMatch e.options (pickBy (op.toGraphOpts e.start opts))).map
    fun e => (op, e)

/-- `doWithRightForme`'s search: the first sub-operation, in list order,
with a matching entry. -/
def findDispatch (equivb : S → S → Bool) (ops : List (SubOp S)) (specs : S)
    (opts : Opts) : Option (SubOp S × DirectedEntry S) :=
  ops.findSome? (matchStep equivb specs opts)

/-- The combined operation's `apply`: dispatch, then run the chosen
sub-operation on the forme rebuilt from the matched entry's start
specs; raises when no sub-operation has a matching entry. -/
def combinedApply (equivb : S → S → Bool) (ops : List (SubOp S)) (specs : S)
    (opts : Opts) : Except String S :=
  match findDispatch equivb ops specs opts with
  | some (op, e) => op.applyOp e.start opts
  | none => .error "Could not find matching graph entry"

/-- The combined operation's `toGraphOpts`: the graph options computed by
the dispatched sub-operation; raises when no sub-operation matches. -/
def combinedToGraphOpts (equivb : S → S → Bool) (ops : List (SubOp S))
    (specs : S) (opts : Opts) : Except String GOpts :=
  match findDispatch equivb ops specs opts with
  | some (op, e) => .ok (op.toGraphOpts e.start opts)
  | none => .error "Could not find matching graph entry"

/-! ## Capstone specs

The `specs` data classes are not part of the repository snapshot; they
are modelled from the specification (section 3: base-sides count,
elongation in none/prism/antiprism, twist, primary/secondary,
mono/bi count) plus the fields the operation code reads (`isGyro`,
`withData`). -/

/-- A twist direction (`types.ts` `twists = ["left", "right"]`). -/
inductive Twist
  | left
  | right
deriving DecidableEq

/-- `oppositeTwist` of types.ts. -/
def oppositeTwist : Twist → Twist
  | .left => .right
  | .right => .left

def twistStr : Twist → String
  | .left => "left"
  | .right => "right"

/-- Modelled from the spec: elongation is one of none, prism, antiprism. -/
inductive Elongation
  | noElong
  | prism
  | antiprism
deriving DecidableEq

/-- Modelled from the spec: the kind of cap a capstone solid carries
(primary = pyramid; secondary = cupola / rotunda / cupola-rotunda). -/
inductive CapType
  | pyramid
  | cupola
  | rotunda
  | cupolarotunda
deriving DecidableEq

/-- Ortho/gyro relation of the two caps of a bi-capstone. -/
inductive Gyrate
  | ortho
  | gyro
deriving DecidableEq

/-- Modelled from the spec: a Capstone classification value. `count` 0
is a plain prismatic solid, 1 a mono capstone, 2 a bi capstone. -/
structure Capstone where
  base : Nat
  capType : CapType
  elongation : Elongation
  count : Nat
  gyrate : Option Gyrate
  twist : Option Twist
deriving DecidableEq

/-- Modelled from the spec: prismatic means no cap at all. -/
def Capstone.isPrismatic (c : Capstone) : Bool := c.count == 0

/-- Modelled from the spec: a prism is a prismatic solid with prism
elongation. -/
def Capstone.isPrism (c : Capstone) : Bool :=
  c.isPrismatic && c.elongation == .prism

/-- Modelled from the spec. -/
def Capstone.isDigonal (c : Capstone) : Bool := c.base == 2

/-- Modelled from the spec. -/
def Capstone.isTriangular (c : Capstone) : Bool := c.base == 3

/-- Modelled from the spec: primary capstones are the pyramids. -/
def Capstone.isPrimary (c : Capstone) : Bool := c.capType == .pyramid

/-- Modelled from the spec. -/
def Capstone.isSecondary (c : Capstone) : Bool := !c.isPrimary

/-- Modelled from the spec. -/
def Capstone.isMono (c : Capstone) : Bool := c.count == 1

/-- Modelled from the spec. -/
def Capstone.isBi (c : Capstone) : Bool := c.count == 2

/-- Modelled from the spec: whether the two caps are in gyro relation. -/
def Capstone.isGyro (c : Capstone) : Bool := c.gyrate == some .gyro

/-- Modelled from the spec: `equals` is structural comparison, and
`equivalent` is the relaxed comparison that ignores cosmetic parameters
such as the twist direction. -/
def Capstone.equivalent (a b : Capstone) : Bool :=
  ({ a with twist := Option.none } == { b with twist := Option.none })

/-- The bases each cap type exists over (pyramids 3-5, cupolae 2-5,
rotundae 5). -/
def capTypeBases : CapType → List Nat
  | .pyramid => [3, 4, 5]
  | .cupola => [2, 3, 4, 5]
  | .rotunda => [5]
  | .cupolarotunda => [5]

/-- Modelled from the spec: validity of a catalog entry. Prismatic
entries are elongated (a prism or antiprism over the primary or
secondary base polygon); a cupola-rotunda needs both caps; the
ortho/gyro tag exists exactly for non-gyroelongated secondary
bi-capstones; catalog entries carry no twist. -/
def isValidCapstone (c : Capstone) : Bool :=
  (capTypeBases c.capType).contains c.base &&
  (c.count == 0 || c.count == 1 || c.count == 2) &&
  (!(c.count == 0) ||
    (!(c.elongation == .noElong) &&
      (c.capType == .pyramid || c.capType == .cupola))) &&
  (!(c.capType == .cupolarotunda) || c.count == 2) &&
  (c.gyrate.isSome ==
    (c.isSecondary && c.count == 2 && !(c.elongation == .antiprism))) &&
  c.twist == Option.none

/-- Modelled from the spec: `Capstone.query`, the finite catalog of
capstone classification values. -/
def allCapstones : List Capstone :=
  ([2, 3, 4, 5].flatMap fun b =>
    [CapType.pyramid, .cupola, .rotunda, .cupolarotunda].flatMap fun t =>
      [Elongation.noElong, .prism, .antiprism].flatMap fun e =>
        [0, 1, 2].flatMap fun n =>
          [Option.none, some Gyrate.ortho, some Gyrate.gyro].map fun g =>
            { base := b, capType := t, elongation := e, count := n,
              gyrate := g, twist := Option.none : Capstone }).filter
    isValidCapstone

/-! ## The prism operation graphs (the elongate/turn module)

Straight translations of the graph generators of the source: each
`makeOpPair` input's `graph` materialized over the capstone catalog. -/

/-- `canGyroelongPrimary` of the source. -/
def canGyroelongPrimary (s : Capstone) : Bool :=
  s.isPrimary && !s.isTriangular

/-- `canGyroelongSecondary` of the source. -/
def canGyroelongSecondary (s : Capstone) : Bool :=
  s.isSecondary && !s.isDigonal

/-- The graph of `makePrismOp {query, rightElongation} leftElongation`:
every catalog entry passing the query, not prismatic, with the right
elongation, paired with itself re-elongated to the left elongation. -/
def makePrismOpGraph (query : Capstone → Bool) (rightElongation : Elongation)
    (leftElongation : Elongation) : List (GraphEntry Capstone) :=
  (allCapstones.filter fun s =>
      query s && !s.isPrismatic && s.elongation == rightElongation).map
    fun item =>
      { left := { item with elongation := leftElongation }
        right := item
        leftOpts := []
        rightOpts := [] }

/-- The graph of `_elongate = makePrismOp {query := not digonal,
rightElongation := prism} null`. -/
def elongateGraph : List (GraphEntry Capstone) :=
  makePrismOpGraph (fun s => !s.isDigonal) .prism .noElong

/-- The graph of `gyroelongPyramid = makePrismOp {canGyroelongPrimary} null`. -/
def gyroelongPyramidGraph : List (GraphEntry Capstone) :=
  makePrismOpGraph canGyroelongPrimary .antiprism .noElong

/-- The graph of `turnPyramid = makePrismOp {canGyroelongPrimary} "prism"`. -/
def turnPyramidGraph : List (GraphEntry Capstone) :=
  makePrismOpGraph canGyroelongPrimary .antiprism .prism

/-- The graph of `gyroelongCupola`. -/
def gyroelongCupolaGraph : List (GraphEntry Capstone) :=
  makePrismOpGraph (fun s => canGyroelongSecondary s && s.isMono)
    .antiprism .noElong

/-- The graph of `turnCupola`. -/
def turnCupolaGraph : List (GraphEntry Capstone) :=
  makePrismOpGraph (fun s => canGyroelongSecondary s && s.isMono)
    .antiprism .prism

/-- The graph of `turnPrismatic`: every prism (except the digonal one)
mapped to its antiprism. -/
def turnPrismaticGraph : List (GraphEntry Capstone) :=
  (allCapstones.filter fun s => s.isPrism && !s.isDigonal).map fun entry =>
    { left := entry
      right := { entry with elongation := .antiprism }
      leftOpts := []
      rightOpts := [] }

/-- The graph of `makeBicupolaPrismOp leftElongation`: each secondary
non-digonal bi-capstone at the left elongation, expanded over both
twists; left-twisting a gyro bicupola makes the result left twisted,
the opposite for ortho bicupolae, and the side options are opposite
twists of each other. -/
def makeBicupolaPrismOpGraph (leftElongation : Elongation) :
    List (GraphEntry Capstone) :=
  (allCapstones.filter fun s =>
      canGyroelongSecondary s && s.isBi && s.elongation == leftElongation).flatMap
    fun entry =>
      [Twist.left, Twist.right].map fun twist =>
        { left := entry
          right := { entry with
            elongation := .antiprism
            twist := some (if entry.isGyro then twist else oppositeTwist twist) }
          leftOpts := [("twist", twistStr twist)]
          rightOpts := [("twist", twistStr (oppositeTwist twist))] }

/-- The graph of `gyroelongBicupola = makeBicupolaPrismOp null`. -/
def gyroelongBicupolaGraph : List (GraphEntry Capstone) :=
  makeBicupolaPrismOpGraph .noElong

/-- The graph of `turnBicupola = makeBicupolaPrismOp "prism"`. -/
def turnBicupolaGraph : List (GraphEntry Capstone) :=
  makeBicupolaPrismOpGraph .prism

/-- `makeOperation side op` reduced to a combinable sub-operation: the
directed graph for that side, the identity `toGraphOpts` (the source
returns `opts` unchanged), and `apply` reduced to the result specs. -/
def makeOperationSub (side : Side) (graph : List (GraphEntry Capstone)) :
    SubOp Capstone :=
  { graph := toDirected side graph
    toGraphOpts := fun _ opts => opts.map fun kv => (kv.1, some kv.2)
    applyOp := fun specs opts => getOpposite graph side specs opts }

/-- `shorten = combineOps ([_elongate, gyroelongPyramid, gyroelongCupola,
gyroelongBicupola].map (.right))`. -/
def shortenSubOps : List (SubOp Capstone) :=
  [makeOperationSub .right elongateGraph,
   makeOperationSub .right gyroelongPyramidGraph,
   makeOperationSub .right gyroelongCupolaGraph,
   makeOperationSub .right gyroelongBicupolaGraph]

/-- The square pyramid's Specs. -/
def squarePyramid : Capstone :=
  { base := 4, capType := .pyramid, elongation := .noElong, count := 1,
    gyrate := Option.none, twist := Option.none }

/-- The elongated square pyramid's Specs. -/
def elongatedSquarePyramid : Capstone :=
  { squarePyramid with elongation := .prism }

/-- The gyroelongated square pyramid's Specs. -/
def gyroSquarePyramid : Capstone :=
  { squarePyramid with elongation := .antiprism }

/-- One round trip of a graph entry through the OpPair engine: resolve
left to right at the entry's left options, require the declared right
specs, resolve back at the entry's right options, and require a result
equivalent to the left specs. -/
def roundTripB (g : List (GraphEntry Capstone)) (e : GraphEntry Capstone) :
    Bool :=
  match getOpposite g .left e.left e.leftOpts with
  | .error _ => false
  | .ok r =>
    (r == e.right) &&
      (match getOpposite g .right r e.rightOpts with
       | .error _ => false
       | .ok l => Capstone.equivalent l e.left)

/-- Every entry of a graph round-trips. -/
def graphRoundTrips (g : List (GraphEntry Capstone)) : Bool :=
  g.all (roundTripB g)

/-! ## Geometry primitives for the Composite Forme layer

Exact integer vectors stand in for the floating-point normals;
`math/geom` is not part of the snapshot. -/

/-- An exact 3-vector (a face or cap normal). -/
structure Vec3 where
  x : Int
  y : Int
  z : Int
deriving DecidableEq

/-- Negation of a vector. -/
def Vec3.neg (v : Vec3) : Vec3 := ⟨-v.x, -v.y, -v.z⟩

/-- Modelled from the spec: `isInverse` of math/geom tests whether one
normal is the geometric inverse of the other. -/
def isInverse (v w : Vec3) : Bool := w == v.neg

/-! ## The polyhedron mesh as the Composite Forme layer reads it

Faces are compared by index (`Face.equals`); a cap exposes its boundary
edges (each edge giving the indices of its two adjacent faces, the
owning face and the twin's face), its inner vertices and a normal.
`FaceLike.adjacentFaces` (in the snapshot) maps each boundary edge to
its twin's face. -/

/-- A face: index, side count, vertex indices, the side counts of the
faces adjacent across its edges, and its normal. -/
structure Face where
  idx : Nat
  numSides : Nat
  vertexIndices : List Nat
  adjacentNumSides : List Nat
  normal : Vec3
deriving DecidableEq

/-- An edge of a cap's boundary: the indices of its own face and of its
twin's face (the two faces adjacent to the edge). -/
structure CapEdge where
  faceIdx : Nat
  twinFaceIdx : Nat
deriving DecidableEq

/-- A cap: its boundary ring of edges, its inner vertex indices, and its
normal. -/
structure Cap where
  boundaryEdges : List CapEdge
  innerVertices : List Nat
  normal : Vec3
deriving DecidableEq

/-- `cap.boundary().adjacentFaces()`: each boundary edge's twin face
(FaceLike.adjacentFaces of the snapshot). -/
def Cap.boundaryAdjacentFaces (c : Cap) : List Nat :=
  c.boundaryEdges.map CapEdge.twinFaceIdx

/-- A polyhedron as the Composite Forme layer reads it. -/
structure Polyhedron where
  faces : List Face
  caps : List Cap
deriving DecidableEq

/-- The side count of the face with the given index (0 when absent). -/
def Polyhedron.faceNumSides (g : Polyhedron) (i : Nat) : Nat :=
  (((g.faces.find? fun f => f.idx == i).map Face.numSides).getD 0)

/-- Modelled from the spec: `geom.largestFace().numSides`, the largest
side count among the polyhedron's faces. -/
def Polyhedron.largestFaceNumSides (g : Polyhedron) : Nat :=
  g.faces.foldl (fun m f => max m f.numSides) 0

/-! ## Composite specs

Modelled from the spec (section 3): a source classical/prism shape plus
counts of augmentations, diminishments and gyrations.  The family
predicates follow the catalog families the spec names: prism sources
make augmented prisms; classical sources make augmented classicals
(no diminishing or gyration), diminished solids (diminished, not
gyrated) and gyrate solids (gyrated). -/

/-- Modelled from the spec: the source shape of a Composite, with the
flags the Forme layer reads from it. -/
inductive SourceKind
  | prism (secondary : Bool)
  | classical (tetrahedral : Bool) (icosahedral : Bool) (regular : Bool)
deriving DecidableEq

/-- Modelled from the spec: a Composite classification value. -/
structure Composite where
  source : SourceKind
  augmented : Nat
  diminished : Nat
  gyrate : Nat
deriving DecidableEq

/-- Modelled from the spec. -/
def Composite.isAugmented (s : Composite) : Bool := !(s.augmented == 0)

/-- Modelled from the spec. -/
def Composite.isDiminished (s : Composite) : Bool := !(s.diminished == 0)

/-- Modelled from the spec. -/
def Composite.isGyrate (s : Composite) : Bool := !(s.gyrate == 0)

/-- Modelled from the spec: exactly one modification in total. -/
def Composite.isMono (s : Composite) : Bool :=
  s.augmented + s.diminished + s.gyrate == 1

/-- Whether the source is a prism. -/
def Composite.sourceIsPrism (s : Composite) : Bool :=
  match s.source with
  | .prism _ => true
  | .classical _ _ _ => false

/-- `specs.sourcePrism().isSecondary()`. -/
def Composite.sourcePrismSecondary (s : Composite) : Bool :=
  match s.source with
  | .prism sec => sec
  | .classical _ _ _ => false

/-- `specs.sourceClassical().isTetrahedral()`. -/
def Composite.sourceClassicalTetrahedral (s : Composite) : Bool :=
  match s.source with
  | .prism _ => false
  | .classical t _ _ => t

/-- `specs.sourceClassical().isIcosahedral()`. -/
def Composite.sourceClassicalIcosahedral (s : Composite) : Bool :=
  match s.source with
  | .prism _ => false
  | .classical _ i _ => i

/-- `specs.sourceClassical().isRegular()`. -/
def Composite.sourceClassicalRegular (s : Composite) : Bool :=
  match s.source with
  | .prism _ => false
  | .classical _ _ r => r

/-- Modelled from the spec: an augmented prism has a prism source and at
least one augmentation. -/
def Composite.isAugmentedPrism (s : Composite) : Bool :=
  s.sourceIsPrism && s.isAugmented

/-- Modelled from the spec: an augmented classical solid has a classical
source, at least one augmentation, and no diminishing or gyration. -/
def Composite.isAugmentedClassical (s : Composite) : Bool :=
  !s.sourceIsPrism && s.isAugmented && !s.isDiminished && !s.isGyrate

/-- Modelled from the spec: a diminished solid has a classical source,
at least one diminishing, and no gyration (it may also be augmented). -/
def Composite.isDiminishedSolid (s : Composite) : Bool :=
  !s.sourceIsPrism && s.isDiminished && !s.isGyrate

/-- Modelled from the spec: a gyrate solid has a classical source and at
least one gyration (it may also be diminished). -/
def Composite.isGyrateSolid (s : Composite) : Bool :=
  !s.sourceIsPrism && s.isGyrate

/-! ## The Composite Forme layer (CompositeForme.ts)

The four variants become a sum type; the subclass method overrides of
the source become per-variant cases. -/

/-- The four Composite Forme variants, each pairing specs with a
geometry. -/
inductive CompositeForme
  | augmentedPrism (specs : Composite) (geom : Polyhedron)
  | augmentedClassical (specs : Composite) (geom : Polyhedron)
  | diminishedSolid (specs : Composite) (geom : Polyhedron)
  | gyrateSolid (specs : Composite) (geom : Polyhedron)
deriving DecidableEq

/-- The specs of a forme. -/
def CompositeForme.specs : CompositeForme → Composite
  | .augmentedPrism s _ => s
  | .augmentedClassical s _ => s
  | .diminishedSolid s _ => s
  | .gyrateSolid s _ => s

/-- The geometry of a forme. -/
def CompositeForme.geom : CompositeForme → Polyhedron
  | .augmentedPrism _ g => g
  | .augmentedClassical _ g => g
  | .diminishedSolid _ g => g
  | .gyrateSolid _ g => g

/-- `CompositeForme.create`: dispatch on the four family predicates in
order; raise when none matches. -/
def CompositeForme.create (specs : Composite) (geom : Polyhedron) :
    Except String CompositeForme :=
  if specs.isAugmentedPrism then .ok (.augmentedPrism specs geom)
  else if specs.isAugmentedClassical then .ok (.augmentedClassical specs geom)
  else if specs.isDiminishedSolid then .ok (.diminishedSolid specs geom)
  else if specs.isGyrateSolid then .ok (.gyrateSolid specs geom)
  else .error "Invalid composite specs"

/-- `caps()`: the geometry's caps; the AugmentedClassical override keeps
only the first cap for an augmented regular tetrahedron. -/
def CompositeForme.caps : CompositeForme → List Cap
  | .augmentedClassical s g =>
    if s.sourceClassicalTetrahedral && s.sourceClassicalRegular
    then g.caps.take 1 else g.caps
  | f => f.geom.caps

/-- `capInnerVertIndices()`: the union of the caps' inner vertex
indices. -/
def CompositeForme.capInnerVertIndices (f : CompositeForme) : List Nat :=
  f.caps.flatMap Cap.innerVertices

/-- `isSourceFace`: every vertex of the face avoids the caps' inner
vertices. -/
def CompositeForme.isSourceFace (f : CompositeForme) (face : Face) : Bool :=
  face.vertexIndices.all fun v => !(f.capInnerVertIndices.contains v)

/-- `hasAlignment()`: mono overall; the AugmentedPrism override also
requires a secondary source prism and the AugmentedClassical override an
icosahedral source. -/
def CompositeForme.hasAlignment : CompositeForme → Bool
  | .augmentedPrism s _ => s.isMono && s.sourcePrismSecondary
  | .augmentedClassical s _ => s.isMono && s.sourceClassicalIcosahedral
  | .diminishedSolid s _ => s.isMono
  | .gyrateSolid s _ => s.isMono

/-- `isDiminishedFace` of the Diminished and Gyrate variants: a face
with as many sides as the largest face, on a diminished solid. -/
def CompositeForme.isDiminishedFace (f : CompositeForme) (face : Face) :
    Bool :=
  f.specs.isDiminished && face.numSides == f.geom.largestFaceNumSides

/-- `GyrateSolidForme.isGyrate cap`: along every boundary edge the two
adjacent faces agree on being 4-sided. -/
def CompositeForme.isGyrate (f : CompositeForme) (cap : Cap) : Bool :=
  cap.boundaryEdges.all fun e =>
    ((f.geom.faceNumSides e.faceIdx == 4) ==
      (f.geom.faceNumSides e.twinFaceIdx == 4))

/-- `gyrateCaps()`: the geometry's caps that are gyrate. -/
def CompositeForme.gyrateCaps (f : CompositeForme) : List Cap :=
  f.geom.caps.filter fun cap => f.isGyrate cap

/-- `diminishedFaces()`. -/
def CompositeForme.diminishedFaces (f : CompositeForme) : List Face :=
  f.geom.faces.filter fun face => f.isDiminishedFace face

/-- A modification site: a cap or a face. -/
inductive ModBase
  | cap (c : Cap)
  | face (f : Face)
deriving DecidableEq

/-- The normal of a modification site. -/
def ModBase.normal : ModBase → Vec3
  | .cap c => c.normal
  | .face f => f.normal

/-- `modifications()`: the caps for the augmented variants, the
diminished faces for the diminished variant, and the gyrate caps plus
diminished faces for the gyrate variant. -/
def CompositeForme.modifications (f : CompositeForme) : List ModBase :=
  match f with
  | .augmentedPrism _ _ => f.caps.map ModBase.cap
  | .augmentedClassical _ _ => f.caps.map ModBase.cap
  | .diminishedSolid _ _ => f.diminishedFaces.map ModBase.face
  | .gyrateSolid _ _ =>
    f.gyrateCaps.map ModBase.cap ++ f.diminishedFaces.map ModBase.face

/-- Para/meta alignment of a modification site. -/
inductive Alignment
  | para
  | meta
deriving DecidableEq

/-- Modelled from the spec: `getSingle` of utils returns the single
element of a list and raises otherwise. -/
def getSingle : List α → Except String α
  | [x] => .ok x
  | _ => .error "Expected a list with a single element"

/-- `alignment(site)`: undefined without an alignment choice; otherwise
para exactly when the site's normal is the inverse of the single
modification's normal, meta otherwise. -/
def CompositeForme.alignment (f : CompositeForme) (site : ModBase) :
    Except String (Option Alignment) :=
  if !f.hasAlignment then .ok Option.none
  else
    (getSingle f.modifications).map fun m =>
      some (if isInverse site.normal m.normal then .para else .meta)

/-- `AugmentedPrismForme.isSideFace`: a 4-sided face. -/
def CompositeForme.isSideFace (_f : CompositeForme) (face : Face) : Bool :=
  face.numSides == 4

/-- `AugmentedClassicalForme.isMainFace`: a source face, and on a
non-regular source a face that is not a truncation triangle. -/
def CompositeForme.isMainFace (f : CompositeForme) (face : Face) : Bool :=
  f.isSourceFace face &&
    (f.specs.sourceClassicalRegular || !(face.numSides == 3))

/-- `canAugment(face)` of each variant: the augmented variants exclude
faces adjacent to any of the forme's caps' boundaries; the diminished
variant admits diminished faces or all-pentagon neighbourhoods unless
the solid is already augmented; the gyrate variant admits exactly the
diminished faces. -/
def CompositeForme.canAugment (f : CompositeForme) (face : Face) : Bool :=
  match f with
  | .augmentedPrism _ _ =>
    f.isSideFace face &&
      f.caps.all fun cap =>
        cap.boundaryAdjacentFaces.all fun i => !(i == face.idx)
  | .augmentedClassical _ _ =>
    f.isMainFace face &&
      f.caps.all fun cap =>
        cap.boundaryAdjacentFaces.all fun i => !(i == face.idx)
  | .diminishedSolid s _ =>
    !s.isAugmented &&
      (f.isDiminishedFace face ||
        face.adjacentNumSides.all fun n => n == 5)
  | .gyrateSolid _ _ => f.isDiminishedFace face

/-! ## Concrete counterexample data for the gyrate variant

A gyrate solid with one diminishing and one gyration: its decagonal
face 0 is adjacent to the boundary of the (sole) cap, yet `canAugment`
accepts it because the gyrate variant only tests `isDiminishedFace`. -/

/-- A decagonal face next to the cap. -/
def cexFace : Face :=
  { idx := 0, numSides := 10, vertexIndices := [0, 1, 2],
    adjacentNumSides := [4, 5, 4], normal := ⟨0, 0, 1⟩ }

/-- A second face, inside the cap. -/
def cexCapFace : Face :=
  { idx := 1, numSides := 4, vertexIndices := [3, 4, 5, 6],
    adjacentNumSides := [10, 3, 3, 3], normal := ⟨0, 1, 0⟩ }

/-- A cap whose boundary runs between face 1 and face 0. -/
def cexCap : Cap :=
  { boundaryEdges := [{ faceIdx := 1, twinFaceIdx := 0 }],
    innerVertices := [7], normal := ⟨0, 1, 0⟩ }

/-- The counterexample polyhedron. -/
def cexGeom : Polyhedron :=
  { faces := [cexFace, cexCapFace], caps := [cexCap] }

/-- Specs of a gyrate, diminished composite over a classical source. -/
def cexSpecs : Composite :=
  { source := .classical false true false, augmented := 0, diminished := 1,
    gyrate := 1 }

/-- The gyrate-solid forme over the counterexample data. -/
def cexForme : CompositeForme := .gyrateSolid cexSpecs cexGeom

/-! ## Concrete data for witnesses -/

/-- A mono-diminished composite over an icosahedral classical source. -/
def paraSpecs : Composite :=
  { source := .classical false true false, augmented := 0, diminished := 1,
    gyrate := 0 }

/-- Its single diminished (largest) face. -/
def paraFace : Face :=
  { idx := 0, numSides := 5, vertexIndices := [0],
    adjacentNumSides := [5], normal := ⟨0, 0, 1⟩ }

/-- A candidate site whose normal is the inverse of the diminished
face's. -/
def paraSite : Face :=
  { idx := 1, numSides := 5, vertexIndices := [1],
    adjacentNumSides := [5], normal := ⟨0, 0, -1⟩ }

/-- The witness geometry for the alignment claim. -/
def paraGeom : Polyhedron := { faces := [paraFace], caps := [] }

/-- The witness forme for the alignment claim. -/
def paraForme : CompositeForme := .diminishedSolid paraSpecs paraGeom

/-- The pentagonal prism's Specs (no sub-operation of `shorten` covers
a prismatic solid). -/
def pentagonalPrism : Capstone :=
  { base := 5, capType := .pyramid, elongation := .prism, count := 0,
    gyrate := Option.none, twist := Option.none }

/-! ## The legacy augment module (augment.js)

Dihedral angles are exact rationals; the augmentee geometry tables are
opaque (the raw coordinate catalog is an external provider), so they are
arguments of the model. -/

/-- `PRECISION` of math/linAlg.js. -/
def PRECISION : Rat := 1 / 1000

/-- The float constant `Math.PI` as the decimal JavaScript prints. -/
def piQ : Rat := 3.141592653589793

/-- A face of the legacy module: its side count and the dihedral angle
at each of its edges, in edge order. -/
structure DFace where
  numSides : Nat
  edgeDihedrals : List Rat
deriving DecidableEq

/-- An augmentee solid: its faces. -/
structure Augmentee where
  faces : List DFace
deriving DecidableEq

/-- `polyhedron.faceWithNumSides(n)`: the first face with the given side
count. -/
def Augmentee.faceWithNumSides (a : Augmentee) (n : Nat) : Option DFace :=
  a.faces.find? fun f => f.numSides == n

/-- The augmentee tables of augment.js, with the keys the source lists
(pyramids 3-5, cupolae 2-5, rotunda 5); the geometries themselves come
from the opaque catalog. -/
structure AugmentTables where
  pyramid3 : Augmentee
  pyramid4 : Augmentee
  pyramid5 : Augmentee
  cupola2 : Augmentee
  cupola3 : Augmentee
  cupola4 : Augmentee
  cupola5 : Augmentee
  rotunda5 : Augmentee

/-- `augmentData.pyramid[n]`. -/
def pyramidLookup (t : AugmentTables) : Nat → Option Augmentee
  | 3 => some t.pyramid3
  | 4 => some t.pyramid4
  | 5 => some t.pyramid5
  | _ => Option.none

/-- `augmentData.cupola[n]`. -/
def cupolaLookup (t : AugmentTables) : Nat → Option Augmentee
  | 2 => some t.cupola2
  | 3 => some t.cupola3
  | 4 => some t.cupola4
  | 5 => some t.cupola5
  | _ => Option.none

/-- `augmentData.rotunda[n]`. -/
def rotundaLookup (t : AugmentTables) : Nat → Option Augmentee
  | 5 => some t.rotunda5
  | _ => Option.none

/-- `getPossibleAugmentees(n)`: the pyramid over `n` plus, for even `n`
only, the cupola and rotunda over `n / 2` (an odd `n` gives the
fractional key `n / 2` in JavaScript, which misses the table). -/
def getPossibleAugmentees (t : AugmentTables) (n : Nat) : List Augmentee :=
  List.filterMap id
    [pyramidLookup t n,
     if n % 2 == 0 then cupolaLookup t (n / 2) else Option.none,
     if n % 2 == 0 then rotundaLookup t (n / 2) else Option.none]

/-- `canAugmentWith(base, augmentee, offset)`: every base edge's
dihedral angle plus the dihedral angle of the underside edge at
`i - 1 + offset` (cyclically) stays strictly below pi minus PRECISION;
`Option.none` when the augmentee has no face with the base's side
count. -/
def canAugmentWith (base : DFace) (augmentee : Augmentee) (offset : Nat) :
    Option Bool :=
  (augmentee.faceWithNumSides base.numSides).map fun underside =>
    let m := underside.edgeDihedrals.length
    (List.range base.edgeDihedrals.length).all fun i =>
      let baseAngle := base.edgeDihedrals.getD i 0
      let augAngle := underside.edgeDihedrals.getD ((i + offset + (m - 1)) % m) 0
      decide (baseAngle + augAngle < piQ - PRECISION)

/-- `canAugment(base)` of augment.js: some possible augmentee fits at
offset 0 or 1. -/
def canAugmentLegacy (t : AugmentTables) (base : DFace) : Bool :=
  (getPossibleAugmentees t base.numSides).any fun augmentee =>
    [0, 1].any fun offset => (canAugmentWith base augmentee offset).getD false

/-! ## doAugment's axis and angle (augment.js)

Exact rational vectors; `getNormalized` of toxiclibs leaves the zero
vector unchanged and otherwise scales to unit length, so the magnitude
of a normalized vector is 0 or 1 and the PRECISION test below is the
zero test.  The angle is represented through the cosine argument
`acos` would receive; NaN becomes `Option.none`, and the source's
`|| 0` becomes `getD 0`. -/

/-- An exact rational 3-vector. -/
structure Vec3Q where
  x : Rat
  y : Rat
  z : Rat
deriving DecidableEq

/-- The zero vector. -/
def Vec3Q.zero : Vec3Q := ⟨0, 0, 0⟩

/-- Vector difference. -/
def Vec3Q.sub (v w : Vec3Q) : Vec3Q := ⟨v.x - w.x, v.y - w.y, v.z - w.z⟩

/-- Cross product. -/
def Vec3Q.cross (v w : Vec3Q) : Vec3Q :=
  ⟨v.y * w.z - v.z * w.y, v.z * w.x - v.x * w.z, v.x * w.y - v.y * w.x⟩

/-- Dot product. -/
def Vec3Q.dot (v w : Vec3Q) : Rat := v.x * w.x + v.y * w.y + v.z * w.z

/-- The magnitude of `getNormalized v`: 0 for the zero vector, else 1. -/
def normalizedMag (v : Vec3Q) : Rat := if v = Vec3Q.zero then 0 else 1

/-- The rotation axis of `doAugment`: the cross product of the underside
normal and the base normal, falling back to the direction from the base
centroid to the base's first vertex when the cross product is (near)
zero.  Directions are kept unnormalized; normalization scales by a
positive factor. -/
def alignBasesNormal (baseV0 baseCenter baseNormal undersideNormal : Vec3Q) :
    Vec3Q :=
  let cross := undersideNormal.cross baseNormal
  if normalizedMag cross < PRECISION then baseV0.sub baseCenter else cross

/-- `angleBetween(v, true)` through the cosine argument: `Option.none`
models the NaN of a degenerate (zero) vector. -/
def cosAngleBetween (v w : Vec3Q) : Option Rat :=
  if v = Vec3Q.zero || w = Vec3Q.zero then Option.none else some (v.dot w)

/-- The source's `baseNormal.angleBetween(undersideNormal, true) || 0`:
the angle data with NaN defaulted to 0. -/
def alignBasesAngleCos (baseNormal undersideNormal : Vec3Q) : Rat :=
  (cosAngleBetween baseNormal undersideNormal).getD 0

/-! ## Augmentation counts (cutPasteUtils.ts) -/

/-- `inc` of cutPasteUtils.ts: the count type is 0 | 1 | 2 | 3, so the
guard tests the top value. -/
def inc (count : Nat) : Except String Nat :=
  if count == 3 then .error "Count is too high to increment"
  else .ok (count + 1)

/-- `dec` of cutPasteUtils.ts. -/
def dec (count : Nat) : Except String Nat :=
  if count == 0 then .error "Count is too low to decrement"
  else .ok (count - 1)

/-- A flat pentagon standing in for the pentagonal-pyramid underside of
the witness tables. -/
def pentW : DFace := { numSides := 5, edgeDihedrals := [1, 1, 1, 1, 1] }

/-- A witness augmentee whose only face is the pentagon. -/
def augW : Augmentee := { faces := [pentW] }

/-- Witness augmentee tables. -/
def augTablesW : AugmentTables :=
  { pyramid3 := augW, pyramid4 := augW, pyramid5 := augW, cupola2 := augW,
    cupola3 := augW, cupola4 := augW, cupola5 := augW, rotunda5 := augW }

/-- A pentagonal base face with unit dihedral angles. -/
def baseW : DFace := { numSides := 5, edgeDihedrals := [1, 1, 1, 1, 1] }

/-! # Theorems -/

/-! ## Shared lemmas on the graph search -/

theorem findEntry_isSome_iff {S : Type} [DecidableEq S]
    (graph : List (GraphEntry S)) (side : Side) (specs : S) (opts : Opts) :
    (findEntry graph side specs opts).isSome = true ↔
      ∃ e ∈ graph, e.sideSpecs side = specs ∧
        isMatch (e.sideOpts side) opts = true := by
  unfold findEntry
  rw [List.find?_isSome]
  constructor
  · rintro ⟨e, hmem, hp⟩
    simp only [Bool.and_eq_true, beq_iff_eq] at hp
    exact ⟨e, hmem, hp.1, hp.2⟩
  · rintro ⟨e, hmem, h1, h2⟩
    exact ⟨e, hmem, by simp [h1, h2]⟩

theorem matchStep_eq_none_iff {S : Type} (equivb : S → S → Bool) (specs : S)
    (opts : Opts) (op : SubOp S) :
    matchStep equivb specs opts op = none ↔
      ∀ e ∈ op.graph, ¬(equivb e.start specs = true ∧
        isMatch e.options (pickBy (op.toGraphOpts e.start opts)) = true) := by
  unfold matchStep
  rw [Option.map_eq_none', List.find?_eq_none]
  constructor
  · intro h e hmem hc
    exact h e hmem (by simp [hc.1, hc.2])
  · intro h e hmem hp
    simp only [Bool.and_eq_true] at hp
    exact h e hmem hp

theorem findDispatch_eq_none_iff {S : Type} (equivb : S → S → Bool)
    (ops : List (SubOp S)) (specs : S) (opts : Opts) :
    findDispatch equivb ops specs opts = none ↔
      ∀ op ∈ ops, matchStep equivb specs opts op = none := by
  unfold findDispatch
  exact List.findSome?_eq_none_iff

theorem findDispatch_prefix {S : Type} (equivb : S → S → Bool)
    (pre post : List (SubOp S)) (op : SubOp S) (specs : S) (opts : Opts)
    (hpre : ∀ o ∈ pre, matchStep equivb specs opts o = none)
    (x : SubOp S × DirectedEntry S)
    (hx : matchStep equivb specs opts op = some x) :
    findDispatch equivb (pre ++ op :: post) specs opts = some x := by
  induction pre with
  | nil => simp [findDispatch, List.findSome?, hx]
  | cons a pre ih =>
    have ha := hpre a (List.mem_cons_self a pre)
    simp only [List.cons_append, findDispatch, List.findSome?, ha]
    exact ih fun o ho => hpre o (List.mem_cons_of_mem a ho)

/-! ## The claims -/

/-- C2: `getEntry` (the gate of `OpPair.apply`) succeeds exactly when
some graph entry has equal specs on the queried side and side options
containing the caller's options; on success the engine proceeds with
that entry (`getOpposite` yields its opposite side), and a caller may
omit all option fields. -/
theorem c2_gate {S : Type} [DecidableEq S] (graph : List (GraphEntry S))
    (side : Side) (specs : S) (opts : Opts) :
    ((getEntry graph side specs opts).isOk = true ↔
      ∃ e ∈ graph, e.sideSpecs side = specs ∧
        isMatch (e.sideOpts side) opts = true) ∧
    (∀ e, findEntry graph side specs opts = some e →
      getOpposite graph side specs opts =
        .ok (e.sideSpecs (oppositeSide side))) ∧
    (∀ obj : Opts, isMatch obj [] = true) := by
  refine ⟨?_, ?_, ?_⟩
  · rw [← findEntry_isSome_iff graph side specs opts]
    unfold getEntry
    cases h : findEntry graph side specs opts <;>
      simp [h, Except.isOk, Except.toBool]
  · intro e he
    unfold getOpposite getEntry
    rw [he]
    rfl
  · intro obj
    simp [isMatch]

/-- C2 witness: the elongate graph admits the square pyramid on the
left with empty options. -/
theorem c2_witness :
    ∃ e ∈ elongateGraph, e.sideSpecs .left = squarePyramid ∧
      isMatch (e.sideOpts .left) [] = true :=
  (c2_gate elongateGraph .left squarePyramid []).1.mp (by decide)

/-- C4: `combineOps` dispatch: the combined operation fails exactly when
no sub-operation's graph has an entry whose start is equivalent to the
solid's specs with options containing the derived graph options; when a
prefix of sub-operations has no match and one does, both `apply` and
`toGraphOpts` dispatch to that first matching sub-operation and its
first matching entry. -/
theorem c4_dispatch {S : Type} (equivb : S → S → Bool) (ops : List (SubOp S))
    (specs : S) (opts : Opts) :
    (findDispatch equivb ops specs opts = none ↔
      ∀ op ∈ ops, ∀ e ∈ op.graph, ¬(equivb e.start specs = true ∧
        isMatch e.options (pickBy (op.toGraphOpts e.start opts)) = true)) ∧
    (findDispatch equivb ops specs opts = none →
      combinedApply equivb ops specs opts =
        .error "Could not find matching graph entry" ∧
      combinedToGraphOpts equivb ops specs opts =
        .error "Could not find matching graph entry") ∧
    (∀ pre op post x, ops = pre ++ op :: post →
      (∀ o ∈ pre, matchStep equivb specs opts o = none) →
      matchStep equivb specs opts op = some x →
      x.1 = op ∧ x.2 ∈ op.graph ∧ equivb x.2.start specs = true ∧
      isMatch x.2.options (pickBy (op.toGraphOpts x.2.start opts)) = true ∧
      combinedApply equivb ops specs opts = op.applyOp x.2.start opts ∧
      combinedToGraphOpts equivb ops specs opts =
        .ok (op.toGraphOpts x.2.start opts)) := by
  refine ⟨?_, ?_, ?_⟩
  · rw [findDispatch_eq_none_iff]
    constructor
    · intro h op hop
      exact (matchStep_eq_none_iff equivb specs opts op).mp (h op hop)
    · intro h op hop
      exact (matchStep_eq_none_iff equivb specs opts op).mpr (h op hop)
  · intro h
    unfold combinedApply combinedToGraphOpts
    rw [h]
    exact ⟨rfl, rfl⟩
  · intro pre op post x hops hpre hx
    obtain ⟨e, hfind, hxe⟩ := Option.map_eq_some'.mp hx
    have hmem := List.mem_of_find?_eq_some hfind
    have hp := List.find?_some hfind
    simp only [Bool.and_eq_true] at hp
    have hdisp : findDispatch equivb ops specs opts = some x := by
      rw [hops]
      exact findDispatch_prefix equivb pre post op specs opts hpre x hx
    subst hxe
    refine ⟨rfl, hmem, hp.1, hp.2, ?_, ?_⟩
    · unfold combinedApply
      rw [hdisp]
    · unfold combinedToGraphOpts
      rw [hdisp]

/-- C4 witness: no sub-operation of `shorten` covers the pentagonal
prism, so the combined operation raises. -/
theorem c4_witness :
    combinedApply Capstone.equivalent shortenSubOps pentagonalPrism [] =
      .error "Could not find matching graph entry" :=
  ((c4_dispatch Capstone.equivalent shortenSubOps pentagonalPrism []).2.1
    (by rfl)).1

/-- C3 counterexample: the claim's scenario starts from a gyroelongated
square pyramid, but the elongate graph has no left entry for it (every
left entry is unelongated), so `elongate` raises instead of returning a
result to shorten. -/
theorem c3_counterexample :
    (getOpposite elongateGraph .left gyroSquarePyramid []).isOk = false := by
  decide

/-- C3 (amended): every entry of every operation pair's graph
round-trips — left to right yields the declared right specs and right
back to left yields a specs equivalent to the original left — and in
particular elongate takes the square pyramid to the elongated square
pyramid, which shorten takes back to the square pyramid. -/
theorem c3_amended :
    graphRoundTrips turnPrismaticGraph = true ∧
    graphRoundTrips elongateGraph = true ∧
    graphRoundTrips gyroelongPyramidGraph = true ∧
    graphRoundTrips turnPyramidGraph = true ∧
    graphRoundTrips gyroelongCupolaGraph = true ∧
    graphRoundTrips turnCupolaGraph = true ∧
    graphRoundTrips gyroelongBicupolaGraph = true ∧
    graphRoundTrips turnBicupolaGraph = true ∧
    getOpposite elongateGraph .left squarePyramid [] =
      .ok elongatedSquarePyramid ∧
    combinedApply Capstone.equivalent shortenSubOps elongatedSquarePyramid
      [] = .ok squarePyramid :=
  ⟨by decide, by decide, by decide, by decide, by decide, by decide,
   by decide, by decide, by rfl, by rfl⟩

/-- C10: with counts in 0..3, `inc` fails exactly at 3 and otherwise
adds one, `dec` fails exactly at 0 and otherwise subtracts one, the two
invert each other where defined, and the count stays within 0..3. -/
theorem c10_count_range (c : Nat) (h : c ≤ 3) :
    ((inc c).isOk = false ↔ c = 3) ∧
    (c < 3 → inc c = .ok (c + 1)) ∧
    ((dec c).isOk = false ↔ c = 0) ∧
    (0 < c → dec c = .ok (c - 1)) ∧
    (c < 3 → (inc c).bind dec = .ok c) ∧
    (0 < c → (dec c).bind inc = .ok c) ∧
    (∀ d, inc c = .ok d → d ≤ 3) ∧
    (∀ d, dec c = .ok d → d ≤ 3) := by
  interval_cases c <;>
    simp [inc, dec, Except.isOk, Except.toBool, Except.bind]

/-- C10 witness: the round trip at count 2. -/
theorem c10_witness : (inc 2).bind dec = .ok 2 :=
  (c10_count_range 2 (by norm_num)).2.2.2.2.1 (by norm_num)

theorem capsAll_eq_false (caps : List Cap) (face : Face) (cap : Cap)
    (h1 : cap ∈ caps) (h2 : face.idx ∈ cap.boundaryAdjacentFaces) :
    (caps.all fun c => c.boundaryAdjacentFaces.all fun i => !(i == face.idx))
      = false := by
  apply Bool.eq_false_iff.mpr
  intro hall
  have h3 := List.all_eq_true.mp hall cap h1
  have h4 := List.all_eq_true.mp h3 face.idx h2
  simp at h4

/-- C1 (amended): for the AugmentedPrism and AugmentedClassical
variants, `canAugment` rejects every face adjacent to the boundary of
any of the forme's caps; the Diminished and Gyrate variants do not
consult cap boundaries (see the counterexample). -/
theorem c1_amended (s : Composite) (g : Polyhedron) (face : Face)
    (cap : Cap) :
    (cap ∈ (CompositeForme.augmentedPrism s g).caps →
      face.idx ∈ cap.boundaryAdjacentFaces →
      (CompositeForme.augmentedPrism s g).canAugment face = false) ∧
    (cap ∈ (CompositeForme.augmentedClassical s g).caps →
      face.idx ∈ cap.boundaryAdjacentFaces →
      (CompositeForme.augmentedClassical s g).canAugment face = false) := by
  constructor
  · intro h1 h2
    simp only [CompositeForme.canAugment]
    rw [capsAll_eq_false _ face cap h1 h2]
    exact Bool.and_false _
  · intro h1 h2
    simp only [CompositeForme.canAugment]
    rw [capsAll_eq_false _ face cap h1 h2]
    exact Bool.and_false _

/-- C1 counterexample: on a gyrate solid, the diminished face 0 sits on
the boundary of the solid's cap yet `canAugment` accepts it, because
`GyrateSolidForme.canAugment` only tests `isDiminishedFace`. -/
theorem c1_counterexample :
    cexForme.canAugment cexFace = true ∧
    cexCap ∈ cexForme.caps ∧
    cexFace.idx ∈ cexCap.boundaryAdjacentFaces := by
  decide

/-- C1 witness: the AugmentedPrism variant over the same data rejects
the boundary face. -/
theorem c1_witness :
    (CompositeForme.augmentedPrism cexSpecs cexGeom).canAugment cexFace
      = false :=
  (c1_amended cexSpecs cexGeom cexFace cexCap).1 (by decide) (by decide)

/-- C5: `alignment` is undefined exactly when the forme has no
alignment choice; with a single modification it is para exactly when
the site's normal is the geometric inverse of that modification's
normal and meta otherwise; and the AugmentedPrism variant's
`hasAlignment` additionally requires a secondary (non-primary) source
prism. -/
theorem c5_alignment (f : CompositeForme) (site : ModBase) (m : ModBase)
    (hmods : f.modifications = [m]) :
    (f.alignment site = .ok Option.none ↔ f.hasAlignment = false) ∧
    (f.alignment site = .ok (some .para) ↔
      (f.hasAlignment = true ∧ isInverse site.normal m.normal = true)) ∧
    (f.alignment site = .ok (some .meta) ↔
      (f.hasAlignment = true ∧ isInverse site.normal m.normal = false)) ∧
    (∀ s g, (CompositeForme.augmentedPrism s g).hasAlignment =
      (s.isMono && s.sourcePrismSecondary)) := by
  refine ⟨?_, ?_, ?_, fun s g => rfl⟩ <;>
    cases hha : f.hasAlignment <;>
      cases hinv : isInverse site.normal m.normal <;>
        simp [CompositeForme.alignment, hmods, getSingle, hha, hinv,
          Except.map]

/-- C5 witness: a mono-diminished solid classifies the inverse-normal
site as para. -/
theorem c5_witness :
    paraForme.alignment (ModBase.face paraSite) = .ok (some .para) :=
  ((c5_alignment paraForme (ModBase.face paraSite) (ModBase.face paraFace)
    (by decide)).2.1).mpr (by decide)

theorem beqFour_iff (a b : Nat) :
    (((a == 4) == (b == 4)) = true) ↔ (a = 4 ↔ b = 4) := by
  by_cases ha : a = 4 <;> by_cases hb : b = 4 <;> simp [ha, hb]

/-- C6: a cap is gyrate exactly when the two faces adjacent to each
boundary edge agree on being 4-sided, and the classification is
invariant under cyclic rotation of the boundary edge list. -/
theorem c6_gyrate (s : Composite) (g : Polyhedron) (cap : Cap) :
    ((CompositeForme.gyrateSolid s g).isGyrate cap = true ↔
      ∀ e ∈ cap.boundaryEdges,
        (g.faceNumSides e.faceIdx = 4 ↔ g.faceNumSides e.twinFaceIdx = 4)) ∧
    (∀ n, (CompositeForme.gyrateSolid s g).isGyrate
        { cap with boundaryEdges := cap.boundaryEdges.rotate n } =
      (CompositeForme.gyrateSolid s g).isGyrate cap) := by
  constructor
  · simp only [CompositeForme.isGyrate, List.all_eq_true]
    constructor
    · intro h e he
      exact (beqFour_iff _ _).mp (h e he)
    · intro h e he
      exact (beqFour_iff _ _).mpr (h e he)
  · intro n
    apply Bool.eq_iff_iff.mpr
    simp only [CompositeForme.isGyrate, List.all_eq_true]
    constructor
    · intro h e he
      exact h e (List.mem_rotate.mpr he)
    · intro h e he
      exact h e (List.mem_rotate.mp he)

/-- C6 witness: rotating the counterexample cap's boundary by one edge
leaves its classification unchanged. -/
theorem c6_witness :
    (CompositeForme.gyrateSolid cexSpecs cexGeom).isGyrate
        { cexCap with boundaryEdges := cexCap.boundaryEdges.rotate 1 } =
      (CompositeForme.gyrateSolid cexSpecs cexGeom).isGyrate cexCap :=
  (c6_gyrate cexSpecs cexGeom cexCap).2 1

/-- C7: `CompositeForme.create` raises exactly when none of the four
family predicates holds, and returns the variant of whichever
predicate holds (the four are pairwise disjoint over the modelled
Composite specs). -/
theorem c7_create (s : Composite) (g : Polyhedron) :
    ((∃ err, CompositeForme.create s g = .error err) ↔
      (s.isAugmentedPrism = false ∧ s.isAugmentedClassical = false ∧
       s.isDiminishedSolid = false ∧ s.isGyrateSolid = false)) ∧
    (s.isAugmentedPrism = true →
      CompositeForme.create s g = .ok (.augmentedPrism s g)) ∧
    (s.isAugmentedClassical = true →
      CompositeForme.create s g = .ok (.augmentedClassical s g)) ∧
    (s.isDiminishedSolid = true →
      CompositeForme.create s g = .ok (.diminishedSolid s g)) ∧
    (s.isGyrateSolid = true →
      CompositeForme.create s g = .ok (.gyrateSolid s g)) := by
  obtain ⟨src, a, d, gy⟩ := s
  rcases src with sec | ⟨t, i, r⟩ <;>
    rcases Nat.eq_zero_or_pos a with ha | ha <;>
    rcases Nat.eq_zero_or_pos d with hd | hd <;>
    rcases Nat.eq_zero_or_pos gy with hgy | hgy <;>
      simp_all [CompositeForme.create, Composite.isAugmentedPrism,
        Composite.isAugmentedClassical, Composite.isDiminishedSolid,
        Composite.isGyrateSolid, Composite.sourceIsPrism,
        Composite.isAugmented, Composite.isDiminished, Composite.isGyrate,
        Nat.pos_iff_ne_zero]

/-- C7 witness: the counterexample specs dispatch to the gyrate
variant. -/
theorem c7_witness :
    CompositeForme.create cexSpecs cexGeom =
      .ok (.gyrateSolid cexSpecs cexGeom) :=
  (c7_create cexSpecs cexGeom).2.2.2.2 (by decide)

theorem canAugmentWith_eq (base : DFace) (a : Augmentee) (off : Nat)
    (u : DFace) (hu : a.faceWithNumSides base.numSides = some u) :
    canAugmentWith base a off =
      some ((List.range base.edgeDihedrals.length).all fun i =>
        decide (base.edgeDihedrals.getD i 0 +
          u.edgeDihedrals.getD
            ((i + off + (u.edgeDihedrals.length - 1)) %
              u.edgeDihedrals.length) 0 < piQ - PRECISION)) := by
  unfold canAugmentWith
  rw [hu]
  rfl

/-- C8: for a pentagonal base, the only possible augmentee is the
pentagonal pyramid (the graph entry to the pentagonal bipyramid), the
base is augmentable exactly when that augmentee fits at offset 0 or 1,
and the augmentee fits at an offset exactly when every base edge's
dihedral angle plus the corresponding underside edge's dihedral angle
stays strictly below pi minus PRECISION. -/
theorem c8_augment (t : AugmentTables) (base underside : DFace)
    (hn : base.numSides = 5)
    (hu : t.pyramid5.faceWithNumSides 5 = some underside) :
    (getPossibleAugmentees t 5 = [t.pyramid5]) ∧
    (canAugmentLegacy t base = true ↔
      ∃ off ∈ [0, 1], canAugmentWith base t.pyramid5 off = some true) ∧
    (∀ off, canAugmentWith base t.pyramid5 off = some true ↔
      ∀ i ∈ List.range base.edgeDihedrals.length,
        base.edgeDihedrals.getD i 0 +
          underside.edgeDihedrals.getD
            ((i + off + (underside.edgeDihedrals.length - 1)) %
              underside.edgeDihedrals.length) 0 < piQ - PRECISION) := by
  have hu' : t.pyramid5.faceWithNumSides base.numSides = some underside := by
    rw [hn]; exact hu
  have key := fun off => canAugmentWith_eq base t.pyramid5 off underside hu'
  refine ⟨rfl, ?_, ?_⟩
  · unfold canAugmentLegacy
    rw [hn]
    have hga : getPossibleAugmentees t 5 = [t.pyramid5] := rfl
    rw [hga]
    constructor
    · intro h
      obtain ⟨aug, haug, h2⟩ := List.any_eq_true.mp h
      obtain ⟨off, hoff, h3⟩ := List.any_eq_true.mp h2
      have haugeq : aug = t.pyramid5 := by simpa using haug
      subst haugeq
      refine ⟨off, hoff, ?_⟩
      rw [key off] at h3 ⊢
      simpa using h3
    · rintro ⟨off, hoff, hca⟩
      apply List.any_eq_true.mpr
      refine ⟨t.pyramid5, by simp, ?_⟩
      apply List.any_eq_true.mpr
      refine ⟨off, hoff, ?_⟩
      rw [hca]
      rfl
  · intro off
    rw [key off]
    simp only [Option.some.injEq, List.all_eq_true, decide_eq_true_eq]

/-- C8 witness: a flat pentagonal base with unit dihedral angles admits
the witness pentagonal augmentee. -/
theorem c8_witness : canAugmentLegacy augTablesW baseW = true := by
  apply ((c8_augment augTablesW baseW pentW rfl rfl).2.1).mpr
  refine ⟨0, by decide, ?_⟩
  rw [canAugmentWith_eq baseW augTablesW.pyramid5 0 pentW rfl]
  have hr : List.range baseW.edgeDihedrals.length = [0, 1, 2, 3, 4] := rfl
  rw [hr]
  simp only [List.all_cons, List.all_nil, Bool.and_true, Bool.and_eq_true,
    decide_eq_true_eq]
  norm_num [baseW, pentW, piQ, PRECISION]

/-- C9: the rotation axis of `doAugment` falls back to the direction
from the base centroid to the base's first vertex exactly when the
cross product of the two normals is zero (the PRECISION test on the
normalized cross magnitude is the zero test), and the angle data is
total: NaN (`Option.none`) defaults to 0, a defined cosine passes
through. -/
theorem c9_align (v0 c bn un : Vec3Q) :
    (un.cross bn = Vec3Q.zero →
      alignBasesNormal v0 c bn un = v0.sub c) ∧
    (un.cross bn ≠ Vec3Q.zero →
      alignBasesNormal v0 c bn un = un.cross bn) ∧
    (normalizedMag (un.cross bn) < PRECISION ↔ un.cross bn = Vec3Q.zero) ∧
    (cosAngleBetween bn un = Option.none → alignBasesAngleCos bn un = 0) ∧
    (∀ q, cosAngleBetween bn un = some q → alignBasesAngleCos bn un = q) := by
  have hmag : normalizedMag (un.cross bn) < PRECISION ↔
      un.cross bn = Vec3Q.zero := by
    unfold normalizedMag PRECISION
    split
    · next h => simp only [h, iff_true]; norm_num
    · next h => simp only [h, iff_false]; norm_num
  refine ⟨?_, ?_, hmag, ?_, ?_⟩
  · intro h
    unfold alignBasesNormal
    rw [if_pos (hmag.mpr h)]
  · intro h
    unfold alignBasesNormal
    rw [if_neg (fun hc => h (hmag.mp hc))]
  · intro h
    unfold alignBasesAngleCos
    rw [h]
    rfl
  · intro q h
    unfold alignBasesAngleCos
    rw [h]
    rfl

/-- C9 witness: parallel normals fall back to the centroid-to-vertex
direction. -/
theorem c9_witness :
    alignBasesNormal ⟨1, 0, 0⟩ ⟨0, 0, 0⟩ ⟨0, 0, 2⟩ ⟨0, 0, 1⟩ =
      Vec3Q.sub ⟨1, 0, 0⟩ ⟨0, 0, 0⟩ :=
  (c9_align ⟨1, 0, 0⟩ ⟨0, 0, 0⟩ ⟨0, 0, 2⟩ ⟨0, 0, 1⟩).1
    (by simp only [Vec3Q.cross, Vec3Q.zero]; norm_num)

end PV
